import Mathlib

/-!
# Verification of nxdumptool's certificate and partition-filesystem cores

Shallow embedding of `src/source/cert.c` and `src/source/pfs.c`.

Conventions:
* C `u64` values are `Nat`s; wherever the C code adds two `u64`s the model
  uses `addU64`, which reduces modulo `2^64` exactly as the hardware does.
* Byte buffers are `List Nat` (each element a byte value).
* C strings are `List Char`.
* External collaborators (the ES certificate save store, the NCA section
  reader) are oracle functions passed as parameters.
* Fallible C functions returning `bool` + out-parameters become `Option` /
  `Except` values.
-/

namespace Nxdt

def U64_MOD : Nat := 18446744073709551616

/-- 64-bit wrap-around addition, as performed by every `u64` sum in the C source. -/
def addU64 (a b : Nat) : Nat := (a + b) % U64_MOD

/-! ## Certificate data model

`cert.h` and `signature.h` are not part of the provided sources; the
enumerations below reproduce their enumerator names, which are forced by the
uses in `cert.c` (in particular the `CERT_TYPE` token-pasting macro), with
the standard ES encodings for the numeric signature/public-key codes. Only
distinctness of the values matters to the theorems below. -/

/-- Modelled from the spec: the certificate type tags produced by the
`CERT_TYPE` macro in `cert.c` (lines 29-30). The enumerator names are forced
by the macro's token pasting; as plain C enumerators they are pairwise
distinct values, which the inductive captures. -/
inductive CertType where
  | None
  | SigRsa4096_PubKeyRsa4096
  | SigRsa4096_PubKeyRsa2048
  | SigRsa4096_PubKeyEcc480
  | SigRsa2048_PubKeyRsa4096
  | SigRsa2048_PubKeyRsa2048
  | SigRsa2048_PubKeyEcc480
  | SigEcc480_PubKeyRsa4096
  | SigEcc480_PubKeyRsa2048
  | SigEcc480_PubKeyEcc480
  | SigHmac160_PubKeyRsa4096
  | SigHmac160_PubKeyRsa2048
  | SigHmac160_PubKeyEcc480
  deriving DecidableEq, Repr

/-- Modelled from the spec: signature-type codes ("big-endian 32-bit
enumerations", spec section 6) declared in the absent `signature.h`. -/
def SignatureType_Rsa4096Sha1 : Nat := 0x010000
def SignatureType_Rsa2048Sha1 : Nat := 0x010001
def SignatureType_Ecc480Sha1 : Nat := 0x010002
def SignatureType_Hmac160Sha1 : Nat := 0x010003
def SignatureType_Rsa4096Sha256 : Nat := 0x010004
def SignatureType_Rsa2048Sha256 : Nat := 0x010005
def SignatureType_Ecc480Sha256 : Nat := 0x010006

/-- Modelled from the spec: public-key-type codes declared in the absent `cert.h`. -/
def CertPubKeyType_Rsa4096 : Nat := 0
def CertPubKeyType_Rsa2048 : Nat := 1
def CertPubKeyType_Ecc480 : Nat := 2

/-- Modelled from the spec: `SIGNED_CERT_MIN_SIZE` from the absent `cert.h`
(smallest signed certificate: HMAC-160 signature block + common block +
ECC-480 public-key block). Only its position relative to certificate sizes
matters to the claims. -/
def SIGNED_CERT_MIN_SIZE : Nat := 0x140

/-- Modelled from the spec: `SIGNED_CERT_MAX_SIZE` from the absent `cert.h`
(largest signed certificate: RSA-4096 signature block + common block +
RSA-4096 public-key block). -/
def SIGNED_CERT_MAX_SIZE : Nat := 0x500

/-- A raw certificate buffer together with the results of the structural
parse performed by the helpers of the absent `cert.h`/`signature.h`
(`certGetCommonBlock`, `certGetSignedCertificateSize`, `signatureGetSigType`,
and the big-endian decode of `pub_key_type`). Modelled from the spec:
"Parses a common certificate sub-block to obtain `signature_type` and
`public_key_type` (big-endian 32-bit fields); computes the expected total
signed-certificate size". -/
structure CertData where
  bytes : List Nat
  sigType : Nat
  pubKeyType : Nat
  commonBlockOk : Bool
  signedCertSize : Nat
  deriving DecidableEq, Repr

/-- The `CERT_TYPE(sig)` dispatch macro of `cert.c` lines 29-30: selects among
the three public-key variants of a signature family by `pub_key_type`, with
the ECC-480 variant as the fall-through arm. -/
def CERT_TYPE (pubKeyType : Nat) (r4096 r2048 e480 : CertType) : CertType :=
  if pubKeyType = CertPubKeyType_Rsa4096 then r4096
  else if pubKeyType = CertPubKeyType_Rsa2048 then r2048
  else e480

/-- `certGetCertificateType` (`cert.c` lines 256-300). `c` carries the parse
results of the buffer contents; `dataSize` is the `data_size` argument. The
non-null `data` check is implicit in having a `CertData` at all. -/
def certGetCertificateType (c : CertData) (dataSize : Nat) : CertType :=
  if dataSize < SIGNED_CERT_MIN_SIZE ∨ SIGNED_CERT_MAX_SIZE < dataSize then CertType.None
  else if c.commonBlockOk = false ∨ c.signedCertSize = 0 ∨ dataSize < c.signedCertSize then CertType.None
  else if c.sigType = SignatureType_Rsa4096Sha1 ∨ c.sigType = SignatureType_Rsa4096Sha256 then
    CERT_TYPE c.pubKeyType CertType.SigRsa4096_PubKeyRsa4096 CertType.SigRsa4096_PubKeyRsa2048 CertType.SigRsa4096_PubKeyEcc480
  else if c.sigType = SignatureType_Rsa2048Sha1 ∨ c.sigType = SignatureType_Rsa2048Sha256 then
    CERT_TYPE c.pubKeyType CertType.SigRsa2048_PubKeyRsa4096 CertType.SigRsa2048_PubKeyRsa2048 CertType.SigRsa2048_PubKeyEcc480
  else if c.sigType = SignatureType_Ecc480Sha1 ∨ c.sigType = SignatureType_Ecc480Sha256 then
    CERT_TYPE c.pubKeyType CertType.SigEcc480_PubKeyRsa4096 CertType.SigEcc480_PubKeyRsa2048 CertType.SigEcc480_PubKeyEcc480
  else if c.sigType = SignatureType_Hmac160Sha1 then
    CERT_TYPE c.pubKeyType CertType.SigHmac160_PubKeyRsa4096 CertType.SigHmac160_PubKeyRsa2048 CertType.SigHmac160_PubKeyEcc480
  else CertType.None

/-- A retrieved certificate (`Certificate` of `cert.h`): declared size, its
raw bytes (an owned copy of exactly `size` bytes), and the classified type. -/
structure Certificate where
  size : Nat
  data : List Nat
  ctype : CertType
  deriving DecidableEq, Repr

/-- A certificate chain (`CertificateChain` of `cert.h`): the `count` field
and the `certs` array. -/
structure CertificateChain where
  count : Nat
  certs : List Certificate
  deriving DecidableEq, Repr

/-- The certificate store collaborator: resolves a certificate name (the
path join with the fixed `/certificate/` base directory of the absent
`save.h` layer is abstracted away) to the stored stream, or `none` when the
path does not exist. The declared stream length is `(store name).bytes.length`
and reads deliver exactly those bytes. -/
def CertStore : Type := List Char → Option CertData

/-- `_certRetrieveCertificateByName` (`cert.c` lines 211-254), with the save
context already opened by the caller (as every call site guarantees):
resolve the name in the store, check the declared size against
`[SIGNED_CERT_MIN_SIZE, SIGNED_CERT_MAX_SIZE]`, read the bytes, classify
them, and fail on a `CertType.None` classification. -/
def _certRetrieveCertificateByName (store : CertStore) (name : List Char) : Option Certificate :=
  match store name with
  | Option.none => Option.none
  | Option.some cd =>
    let certSize := cd.bytes.length
    if certSize < SIGNED_CERT_MIN_SIZE ∨ SIGNED_CERT_MAX_SIZE < certSize then Option.none
    else
      let t := certGetCertificateType cd certSize
      if t = CertType.None then Option.none
      else Option.some { size := certSize, data := cd.bytes, ctype := t }

/-! ## Issuer tokenization

Both `_certRetrieveCertificateChainBySignatureIssuer` (lines 310-344) and
`certGetCertificateCountInSignatureIssuer` (lines 351-370) copy the issuer
remainder `issuer + 5` into a local `char issuer_copy[0x40]` via
`snprintf(issuer_copy, 0x40, ...)` — which writes at most `0x3F` characters
plus the terminator — and then split the copy with `strtok(..., "-")`.
`snprintf` is modelled as a plain truncating copy (the counting pass passes
`issuer + 5` as the format string, which coincides with the copy for every
`'%'`-free issuer; `'%'`-bearing issuers invoke undefined varargs behaviour
and are outside the model). `strtok` yields the maximal non-empty runs
between delimiters. -/

/-- `strtok(buf, "-")` iterated to exhaustion: the non-empty fragments of
`s` split at `'-'`. -/
def strtokAll (s : List Char) : List (List Char) :=
  (s.splitOn '-').filter (fun t => t ≠ [])

/-- The token list the retrieval loop of
`_certRetrieveCertificateChainBySignatureIssuer` iterates over
(`cert.c` lines 328-343): `snprintf`-truncated copy of `issuer + 5`,
split by `strtok`. -/
def certChainTokens (issuer : List Char) : List (List Char) :=
  strtokAll ((issuer.drop 5).take 0x3F)

/-- The token list of the separate counting pass (`cert.c` lines 356-367),
which duplicates the copy-and-split logic. -/
def certCountTokens (issuer : List Char) : List (List Char) :=
  strtokAll ((issuer.drop 5).take 0x3F)

/-- `certGetCertificateCountInSignatureIssuer` (`cert.c` lines 351-370). -/
def certGetCertificateCountInSignatureIssuer (issuer : List Char) : Nat :=
  if issuer = [] then 0
  else (certCountTokens issuer).length

/-- The retrieval loop of `_certRetrieveCertificateChainBySignatureIssuer`
(`cert.c` lines 332-344): retrieve each token's certificate in order; the
first failure aborts the whole loop. -/
def certRetrieveAll (store : CertStore) : List (List Char) → Option (List Certificate)
  | [] => Option.some []
  | t :: ts =>
    match _certRetrieveCertificateByName store t with
    | Option.none => Option.none
    | Option.some c =>
      match certRetrieveAll store ts with
      | Option.none => Option.none
      | Option.some cs => Option.some (c :: cs)

/-- `_certRetrieveCertificateChainBySignatureIssuer` (`cert.c` lines
302-349), with the save context open (as its only call site guarantees) and
`calloc` success assumed (`OutOfMemory` is out of scope). On any retrieval
failure the partially built chain is freed (`certFreeCertificateChain`) and
`false` is returned, which the model renders as `Option.none`: no partial
chain is observable. -/
def _certRetrieveCertificateChainBySignatureIssuer (store : CertStore) (issuer : List Char) :
    Option CertificateChain :=
  if certGetCertificateCountInSignatureIssuer issuer = 0 then Option.none
  else
    match certRetrieveAll store (certChainTokens issuer) with
    | Option.none => Option.none
    | Option.some cs =>
      Option.some { count := certGetCertificateCountInSignatureIssuer issuer, certs := cs }

/-- The fixed root token `"Root-"`. -/
def rootTok : List Char := ['R', 'o', 'o', 't', '-']

/-- `certRetrieveCertificateChainBySignatureIssuer` (`cert.c` lines 75-98).
The guard rejects unless `strlen(issuer) != 0`, `strlen(issuer) > 5` and
`strcmp(issuer, "Root-") == 0` — note the `strcmp` (whole-string equality),
exactly as in the source. Opening the ES save file is modelled as
succeeding; the mutex is irrelevant to the sequential model. -/
def certRetrieveCertificateChainBySignatureIssuer (store : CertStore) (issuer : List Char) :
    Option CertificateChain :=
  if issuer.length ≠ 0 ∧ 5 < issuer.length ∧ issuer = rootTok then
    _certRetrieveCertificateChainBySignatureIssuer store issuer
  else Option.none

/-! ## Raw chain serialization -/

/-- `certCalculateRawCertificateChainSize` (`cert.c` lines 372-379). -/
def certCalculateRawCertificateChainSize (chain : CertificateChain) : Nat :=
  if chain.count = 0 ∨ chain.certs = [] then 0
  else (chain.certs.map (fun c => c.size)).sum

/-- `certCopyCertificateChainDataToMemoryBuffer` (`cert.c` lines 381-391):
the bytes written to the destination buffer — for each certificate in chain
order, `memcpy` of `size` bytes from its `data`. -/
def certCopyCertificateChainDataToMemoryBuffer (chain : CertificateChain) : List Nat :=
  if chain.count = 0 ∨ chain.certs = [] then []
  else (chain.certs.map (fun c => c.data.take c.size)).flatten

/-- `certGenerateRawCertificateChainBySignatureIssuer` (`cert.c` lines
100-134): retrieve the chain through the public wrapper, then serialize it;
returns the buffer and its size. -/
def certGenerateRawCertificateChainBySignatureIssuer (store : CertStore) (issuer : List Char) :
    Option (List Nat × Nat) :=
  if issuer = [] then Option.none
  else
    match certRetrieveCertificateChainBySignatureIssuer store issuer with
    | Option.none => Option.none
    | Option.some chain =>
      Option.some (certCopyCertificateChainDataToMemoryBuffer chain,
                   certCalculateRawCertificateChainSize chain)

/-- Splitting a serialized buffer back into consecutive segments of the
given sizes (the round-trip decomposition of claim C8). -/
def splitBySizes : List Nat → List Nat → List (List Nat)
  | [], _ => []
  | n :: ns, bs => bs.take n :: splitBySizes ns (bs.drop n)

/-! ## Partition filesystem (`pfs.c`) -/

/-- A partition filesystem entry (`PartitionFileSystemEntry`), with its name
already resolved through the name table (the null-terminated lookup at
`name_offset` lives in the absent `pfs.h`). -/
structure PfsEntry where
  offset : Nat
  size : Nat
  name : List Char
  deriving DecidableEq, Repr

/-- A partition filesystem context (`PartitionFileSystemContext`) after the
header has been parsed: `ncaOk` models a non-NULL `nca_fs_ctx`, `offset`/
`size` describe the verified data region, `headerSize` is the computed full
header size, and `entries` is the parsed entry table. -/
structure PfsCtx where
  ncaOk : Bool
  offset : Nat
  size : Nat
  headerSize : Nat
  entries : List PfsEntry
  deriving Repr

/-- Modelled from the spec: `pfsGetEntryByName` of the absent `pfs.h` —
"scans entries, resolving each name via a null-terminated lookup into the
name table at `name_offset`; returns the first structural match or none". -/
def pfsGetEntryByName (ctx : PfsCtx) (name : List Char) : Option PfsEntry :=
  ctx.entries.find? (fun e => e.name = name)

/-- The errors visible in the claims: the bounds-check rejections
(`InvalidArgument` in the spec's taxonomy). Collaborator reads are modelled
as total, so `IOError` never arises in the model. -/
inductive PfsError where
  | invalidArgument
  deriving DecidableEq, Repr

/-- The NCA section collaborator, modelled from the spec's `checked_read`
contract as a total byte map over absolute section offsets. -/
def NcaSection : Type := Nat → Nat

/-- `ncaReadFsSection` result: `readSize` bytes starting at absolute offset
`off` of the section byte map. -/
def ncaReadFsSection (sec : NcaSection) (readSize off : Nat) : List Nat :=
  (List.range readSize).map (fun i => sec (off + i) % 256)

/-- `pfsReadPartitionData` (`pfs.c` lines 100-116). Returns the read result
and the trace of collaborator calls (absolute offset, size); a rejected call
performs no collaborator read and writes nothing. The non-null `ctx`/`out`
checks are implicit in the model. All `u64` sums wrap via `addU64`. -/
def pfsReadPartitionData (ctx : PfsCtx) (sec : NcaSection) (readSize offset : Nat) :
    Except PfsError (List Nat) × List (Nat × Nat) :=
  if ctx.ncaOk = false ∨ ctx.size = 0 ∨ readSize = 0 ∨ ctx.size ≤ offset ∨
      ctx.size < addU64 offset readSize then
    (Except.error PfsError.invalidArgument, [])
  else
    (Except.ok (ncaReadFsSection sec readSize (addU64 ctx.offset offset)),
     [(addU64 ctx.offset offset, readSize)])

/-- `pfsReadEntryData` (`pfs.c` lines 118-135): re-checks the window against
the entry, then delegates to `pfsReadPartitionData` at the shifted offset
`header_size + entry.offset + offset` (wrapping `u64` sums). -/
def pfsReadEntryData (ctx : PfsCtx) (e : PfsEntry) (sec : NcaSection) (readSize offset : Nat) :
    Except PfsError (List Nat) × List (Nat × Nat) :=
  if ctx.size ≤ e.offset ∨ e.size = 0 ∨ ctx.size < addU64 e.offset e.size ∨
      readSize = 0 ∨ e.size ≤ offset ∨ e.size < addU64 offset readSize then
    (Except.error PfsError.invalidArgument, [])
  else
    pfsReadPartitionData ctx sec readSize (addU64 (addU64 ctx.headerSize e.offset) offset)

/-- Big-endian interpretation of a byte list; for the 4-byte reads of
`pfs.c` this is exactly `__builtin_bswap32` of the little-endian-loaded
`u32`. -/
def be32 (bs : List Nat) : Nat :=
  bs.foldl (fun acc b => acc * 256 + b) 0

/-- Modelled from the spec: the "fixed metadata magic" `NPDM_META_MAGIC`
(`"META"` read big-endian) from the absent `npdm.h`. -/
def NPDM_META_MAGIC : Nat := 0x4D455441

/-- The reserved metadata filename `"main.npdm"`. -/
def mainNpdmName : List Char := ['m', 'a', 'i', 'n', '.', 'n', 'p', 'd', 'm']

/-- The ExeFS classification of `pfsInitializeContext` (`pfs.c` lines
93-95): `is_exefs` is set exactly when the `main.npdm` entry exists, the
4-byte read of its start succeeds, and the big-endian magic matches. -/
def pfsIsExefs (ctx : PfsCtx) (sec : NcaSection) : Bool :=
  match pfsGetEntryByName ctx mainNpdmName with
  | Option.none => false
  | Option.some e =>
    match (pfsReadEntryData ctx e sec 4 0).1 with
    | Except.error _ => false
    | Except.ok bs => decide (be32 bs = NPDM_META_MAGIC)

/-- The tail of `pfsInitializeContext` (`pfs.c` lines 93-97): once the full
header is read, the ExeFS classification is performed and the function
returns `true` unconditionally — the classification itself can never fail
the initialization. The result is the final `is_exefs` flag. -/
def pfsInitClassifyStep (ctx : PfsCtx) (sec : NcaSection) : Option Bool :=
  Option.some (pfsIsExefs ctx sec)

/-! ## Helper lemmas -/

/-- A successful retrieval loop pairs each token with its retrieved
certificate, in order. -/
lemma forall2_of_certRetrieveAll {store : CertStore} {ts : List (List Char)}
    {cs : List Certificate} (h : certRetrieveAll store ts = Option.some cs) :
    List.Forall₂ (fun t c => _certRetrieveCertificateByName store t = Option.some c) ts cs := by
  induction ts generalizing cs with
  | nil =>
    unfold certRetrieveAll at h
    cases h
    exact List.Forall₂.nil
  | cons t ts ih =>
    unfold certRetrieveAll at h
    cases hr : _certRetrieveCertificateByName store t with
    | none => rw [hr] at h; cases h
    | some c =>
      rw [hr] at h
      cases hrest : certRetrieveAll store ts with
      | none => rw [hrest] at h; cases h
      | some cs' =>
        rw [hrest] at h
        cases h
        exact List.Forall₂.cons hr (ih hrest)

/-- If any token's retrieval fails, the whole loop fails. -/
lemma certRetrieveAll_eq_none_of_mem {store : CertStore} {ts : List (List Char)}
    {t : List Char} (ht : t ∈ ts)
    (h : _certRetrieveCertificateByName store t = Option.none) :
    certRetrieveAll store ts = Option.none := by
  induction ts with
  | nil => cases ht
  | cons t' ts ih =>
    unfold certRetrieveAll
    rcases List.mem_cons.mp ht with rfl | hmem
    · rw [h]
    · cases hr : _certRetrieveCertificateByName store t' with
      | none => rfl
      | some c => rw [ih hmem]

/-- The counting pass and the retrieval pass split identically: the count
is the length of the retrieval token list, for every issuer. -/
lemma count_eq_certChainTokens_length (issuer : List Char) :
    certGetCertificateCountInSignatureIssuer issuer = (certChainTokens issuer).length := by
  cases issuer with
  | nil => rfl
  | cons a as => rfl

/-- A certificate delivered by `_certRetrieveCertificateByName` carries
exactly `size` bytes. -/
lemma data_length_of_retrieveByName {store : CertStore} {name : List Char}
    {c : Certificate} (h : _certRetrieveCertificateByName store name = Option.some c) :
    c.data.length = c.size := by
  unfold _certRetrieveCertificateByName at h
  cases hs : store name with
  | none => rw [hs] at h; cases h
  | some cd =>
    rw [hs] at h
    dsimp only at h
    by_cases hsz : cd.bytes.length < SIGNED_CERT_MIN_SIZE ∨ SIGNED_CERT_MAX_SIZE < cd.bytes.length
    · rw [if_pos hsz] at h; cases h
    · rw [if_neg hsz] at h
      by_cases ht : certGetCertificateType cd cd.bytes.length = CertType.None
      · rw [if_pos ht] at h; cases h
      · rw [if_neg ht] at h
        cases h
        rfl

/-! ## Concrete example data -/

/-- The issuer of claim C1. -/
def c1Issuer : List Char := "Root-CA00000003-XS00000020".toList

/-- A stored, well-formed RSA-4096/RSA-2048 certificate record. -/
def caCertData : CertData :=
  { bytes := List.replicate 0x140 0, sigType := SignatureType_Rsa4096Sha256,
    pubKeyType := CertPubKeyType_Rsa2048, commonBlockOk := true, signedCertSize := 0x140 }

/-- A stored, well-formed RSA-2048/RSA-2048 certificate record. -/
def xsCertData : CertData :=
  { bytes := List.replicate 0x140 0, sigType := SignatureType_Rsa2048Sha256,
    pubKeyType := CertPubKeyType_Rsa2048, commonBlockOk := true, signedCertSize := 0x140 }

/-- A store resolving exactly the two names of claim C1's issuer. -/
def c1Store : CertStore := fun n =>
  if n = "CA00000003".toList then Option.some caCertData
  else if n = "XS00000020".toList then Option.some xsCertData
  else Option.none

/-- The certificate `_certRetrieveCertificateByName` yields for `CA00000003`
under `c1Store`. -/
def c1CertCA : Certificate :=
  { size := 0x140, data := List.replicate 0x140 0,
    ctype := CertType.SigRsa4096_PubKeyRsa2048 }

/-- The certificate `_certRetrieveCertificateByName` yields for `XS00000020`
under `c1Store`. -/
def c1CertXS : Certificate :=
  { size := 0x140, data := List.replicate 0x140 0,
    ctype := CertType.SigRsa2048_PubKeyRsa2048 }

/-- A store that lacks the second certificate of `"Root-A-B"`. -/
def c5Store : CertStore := fun n =>
  if n = ['A'] then Option.some caCertData else Option.none

/-- The issuer of claim C9's concrete part. -/
def c9Issuer : List Char := "Root-A-B-C".toList

/-- A store resolving the three single-letter names of `"Root-A-B-C"`. -/
def c9Store : CertStore := fun n =>
  if n = ['A'] ∨ n = ['B'] ∨ n = ['C'] then Option.some xsCertData else Option.none

/-- The certificate each of `A`, `B`, `C` resolves to under `c9Store`. -/
def c9Cert : Certificate :=
  { size := 0x140, data := List.replicate 0x140 0,
    ctype := CertType.SigRsa2048_PubKeyRsa2048 }

/-- The chain retrieved for `"Root-A-B-C"` under `c9Store`. -/
def c9Chain : CertificateChain :=
  { count := 3, certs := [c9Cert, c9Cert, c9Cert] }

/-- A one-entry partition context whose `main.npdm` entry starts at region
offset `headerSize + 0 = 0x10` and holds 4 bytes. -/
def c6Ctx : PfsCtx :=
  { ncaOk := true, offset := 0, size := 0x20, headerSize := 0x10,
    entries := [{ offset := 0, size := 4, name := mainNpdmName }] }

/-- A section whose bytes at `0x10..0x13` spell the metadata magic
big-endian. -/
def c6Sec : NcaSection := fun n =>
  if n = 0x10 then 0x4D
  else if n = 0x11 then 0x45
  else if n = 0x12 then 0x54
  else if n = 0x13 then 0x41
  else 0

/-! ## Claim theorems -/

set_option maxRecDepth 8000 in
/-- C1: the claim says every issuer strictly longer than the root token and
starting with `"Root-"` passes the issuer-format precondition of
`certRetrieveCertificateChainBySignatureIssuer`, and that
`"Root-CA00000003-XS00000020"` yields the 2-certificate chain
`[CA00000003, XS00000020]`. The code disagrees: the guard at `cert.c` line
82 demands `strcmp(issuer, "Root-") == 0` (whole-string equality) *and*
`strlen(issuer) > 5`, which no string satisfies, so the public wrapper
rejects every issuer — including the claim's — as `InvalidArgument`
(first conjunct). The second conjunct shows the rest of the code matches
the claimed intent: the inner engine, reached only through this dead guard,
does produce exactly the chain `[CA00000003, XS00000020]` for that issuer
when the store resolves both names. -/
theorem certChainWrapper_rejects_all_issuers :
    (∀ (store : CertStore) (issuer : List Char),
      certRetrieveCertificateChainBySignatureIssuer store issuer = Option.none) ∧
    _certRetrieveCertificateChainBySignatureIssuer c1Store c1Issuer =
      Option.some { count := 2, certs := [c1CertCA, c1CertXS] } := by
  constructor
  · intro store issuer
    unfold certRetrieveCertificateChainBySignatureIssuer
    by_cases h : issuer = rootTok
    · subst h
      simp [rootTok]
    · simp [h]
  · decide

/-- C2 counterexample: two certificate buffers in the HMAC-160 signature
family, identical except for the `pub_key_type` field, classify to two
*different* type tags — `certGetCertificateType` pipes `pub_key_type`
through the `CERT_TYPE` macro for HMAC-160 exactly as for the other
families, contradicting "the returned tag is the same for every value of
the buffer's pub_key_type field". -/
theorem certHmacType_depends_on_pubKeyType :
    certGetCertificateType
        { bytes := List.replicate 0x140 0, sigType := SignatureType_Hmac160Sha1,
          pubKeyType := CertPubKeyType_Rsa4096, commonBlockOk := true,
          signedCertSize := 0x140 } 0x140 = CertType.SigHmac160_PubKeyRsa4096 ∧
    certGetCertificateType
        { bytes := List.replicate 0x140 0, sigType := SignatureType_Hmac160Sha1,
          pubKeyType := CertPubKeyType_Ecc480, commonBlockOk := true,
          signedCertSize := 0x140 } 0x140 = CertType.SigHmac160_PubKeyEcc480 ∧
    CertType.SigHmac160_PubKeyRsa4096 ≠ CertType.SigHmac160_PubKeyEcc480 := by
  refine ⟨rfl, rfl, ?_⟩
  decide

/-- C2 amended: for every buffer within the size bounds whose common block
is locatable, whose declared signed size fits, and whose signature type is
HMAC-160, `certGetCertificateType` consults the `pub_key_type` field just
as for the other signature families, returning
`SigHmac160_PubKeyRsa4096` / `SigHmac160_PubKeyRsa2048` /
`SigHmac160_PubKeyEcc480` according to its value (ECC-480 being the
fall-through arm of the `CERT_TYPE` macro). -/
theorem certHmacType_follows_pubKeyType (c : CertData) (dataSize : Nat)
    (h1 : SIGNED_CERT_MIN_SIZE ≤ dataSize) (h2 : dataSize ≤ SIGNED_CERT_MAX_SIZE)
    (h3 : c.commonBlockOk = true) (h4 : c.signedCertSize ≠ 0)
    (h5 : c.signedCertSize ≤ dataSize) (h6 : c.sigType = SignatureType_Hmac160Sha1) :
    certGetCertificateType c dataSize =
      (if c.pubKeyType = CertPubKeyType_Rsa4096 then CertType.SigHmac160_PubKeyRsa4096
       else if c.pubKeyType = CertPubKeyType_Rsa2048 then CertType.SigHmac160_PubKeyRsa2048
       else CertType.SigHmac160_PubKeyEcc480) := by
  have g1 : ¬(dataSize < SIGNED_CERT_MIN_SIZE ∨ SIGNED_CERT_MAX_SIZE < dataSize) := by
    omega
  have g2 : ¬(c.commonBlockOk = false ∨ c.signedCertSize = 0 ∨ dataSize < c.signedCertSize) := by
    push_neg
    refine ⟨by simp [h3], h4, by omega⟩
  have g3 : ¬(c.sigType = SignatureType_Rsa4096Sha1 ∨ c.sigType = SignatureType_Rsa4096Sha256) := by
    rw [h6]; decide
  have g4 : ¬(c.sigType = SignatureType_Rsa2048Sha1 ∨ c.sigType = SignatureType_Rsa2048Sha256) := by
    rw [h6]; decide
  have g5 : ¬(c.sigType = SignatureType_Ecc480Sha1 ∨ c.sigType = SignatureType_Ecc480Sha256) := by
    rw [h6]; decide
  unfold certGetCertificateType
  rw [if_neg g1, if_neg g2, if_neg g3, if_neg g4, if_neg g5, if_pos h6]
  rfl

/-- C2 amended, witnessed at a concrete HMAC-160 buffer with an RSA-2048
public key. -/
theorem certHmacType_follows_pubKeyType_witness :
    certGetCertificateType
        { bytes := [], sigType := SignatureType_Hmac160Sha1,
          pubKeyType := CertPubKeyType_Rsa2048, commonBlockOk := true,
          signedCertSize := 0x150 } 0x150 =
      (if ({ bytes := [], sigType := SignatureType_Hmac160Sha1,
             pubKeyType := CertPubKeyType_Rsa2048, commonBlockOk := true,
             signedCertSize := 0x150 } : CertData).pubKeyType = CertPubKeyType_Rsa4096 then
         CertType.SigHmac160_PubKeyRsa4096
       else if ({ bytes := [], sigType := SignatureType_Hmac160Sha1,
                  pubKeyType := CertPubKeyType_Rsa2048, commonBlockOk := true,
                  signedCertSize := 0x150 } : CertData).pubKeyType = CertPubKeyType_Rsa2048 then
         CertType.SigHmac160_PubKeyRsa2048
       else CertType.SigHmac160_PubKeyEcc480) :=
  certHmacType_follows_pubKeyType _ _ (by decide) (by decide) (by decide) (by decide)
    (by decide) (by decide)

/-- C7: `certGetCertificateType` returns the `CertType.None` sentinel for
every buffer whose size is below `SIGNED_CERT_MIN_SIZE` or above
`SIGNED_CERT_MAX_SIZE`, whose common block cannot be located, or whose
computed signed-certificate size exceeds the buffer size. -/
theorem certGetCertificateType_none_on_invalid (c : CertData) (dataSize : Nat)
    (h : dataSize < SIGNED_CERT_MIN_SIZE ∨ SIGNED_CERT_MAX_SIZE < dataSize ∨
         c.commonBlockOk = false ∨ dataSize < c.signedCertSize) :
    certGetCertificateType c dataSize = CertType.None := by
  unfold certGetCertificateType
  by_cases g1 : dataSize < SIGNED_CERT_MIN_SIZE ∨ SIGNED_CERT_MAX_SIZE < dataSize
  · rw [if_pos g1]
  · rw [if_neg g1]
    rcases h with h | h | h | h
    · exact absurd (Or.inl h) g1
    · exact absurd (Or.inr h) g1
    · rw [if_pos (Or.inl h)]
    · rw [if_pos (Or.inr (Or.inr h))]

/-- C7 witnessed at a buffer whose declared signed size exceeds the buffer
and at an undersized buffer. -/
theorem certGetCertificateType_none_on_invalid_witness :
    certGetCertificateType
        { bytes := [], sigType := SignatureType_Rsa2048Sha256,
          pubKeyType := CertPubKeyType_Rsa2048, commonBlockOk := true,
          signedCertSize := 0x200 } 0x150 = CertType.None ∧
    certGetCertificateType
        { bytes := [], sigType := SignatureType_Rsa2048Sha256,
          pubKeyType := CertPubKeyType_Rsa2048, commonBlockOk := true,
          signedCertSize := 0x100 } 0x100 = CertType.None :=
  ⟨certGetCertificateType_none_on_invalid _ _ (Or.inr (Or.inr (Or.inr (by decide)))),
   certGetCertificateType_none_on_invalid _ _ (Or.inl (by decide))⟩

/-- C4: `pfsReadPartitionData` fails with `InvalidArgument` and issues no
collaborator read whenever `offset >= region_size` or
`offset + read_size > region_size` (64-bit sum, as computed at `pfs.c`
line 102), and `pfsReadEntryData` fails likewise whenever
`entry.offset + entry.size > region_size` or
`offset + read_size > entry.size` (line 120-121). The rejecting check
returns before any collaborator call (empty trace) and writes nothing. -/
theorem pfsRead_rejects_out_of_bounds :
    (∀ (ctx : PfsCtx) (sec : NcaSection) (readSize offset : Nat),
      ctx.size ≤ offset ∨ ctx.size < addU64 offset readSize →
      pfsReadPartitionData ctx sec readSize offset =
        (Except.error PfsError.invalidArgument, [])) ∧
    (∀ (ctx : PfsCtx) (e : PfsEntry) (sec : NcaSection) (readSize offset : Nat),
      ctx.size < addU64 e.offset e.size ∨ e.size < addU64 offset readSize →
      pfsReadEntryData ctx e sec readSize offset =
        (Except.error PfsError.invalidArgument, [])) := by
  constructor
  · intro ctx sec readSize offset h
    unfold pfsReadPartitionData
    rw [if_pos]
    tauto
  · intro ctx e sec readSize offset h
    unfold pfsReadEntryData
    rw [if_pos]
    tauto

/-- C4 witnessed at the integer boundary cases: a partition read at
`offset == size` and an entry read whose window satisfies
`offset + read_size == entry.size + 1`. -/
theorem pfsRead_rejects_out_of_bounds_witness :
    pfsReadPartitionData
        { ncaOk := true, offset := 0, size := 0x10, headerSize := 0, entries := [] }
        (fun _ => 0) 1 0x10 = (Except.error PfsError.invalidArgument, []) ∧
    pfsReadEntryData
        { ncaOk := true, offset := 0, size := 0x10, headerSize := 0, entries := [] }
        { offset := 0, size := 8, name := [] }
        (fun _ => 0) 8 1 = (Except.error PfsError.invalidArgument, []) :=
  ⟨pfsRead_rejects_out_of_bounds.1 _ _ 1 0x10 (Or.inl (by decide)),
   pfsRead_rejects_out_of_bounds.2 _ _ _ 8 1 (Or.inr (by decide))⟩

/-- C3: `pfsReadEntryData` delegates at the shifted offset
`header_size + entry.offset + offset`, and `pfsReadPartitionData` re-checks
that shifted window against the region size; so even when the documented
preconditions `entry.offset + entry.size <= region_size` and
`offset + read_size <= entry.size` hold, the read still fails with
`InvalidArgument` unless additionally
`header_size + entry.offset + offset + read_size <= region_size`
(all sums 64-bit, as the C code computes them). -/
theorem pfsReadEntryData_shifted_recheck (ctx : PfsCtx) (e : PfsEntry) (sec : NcaSection)
    (readSize offset : Nat)
    (_hEntry : addU64 e.offset e.size ≤ ctx.size)
    (_hWindow : addU64 offset readSize ≤ e.size)
    (hShift : ctx.size < addU64 (addU64 (addU64 ctx.headerSize e.offset) offset) readSize) :
    pfsReadEntryData ctx e sec readSize offset =
      (Except.error PfsError.invalidArgument, []) := by
  unfold pfsReadEntryData
  by_cases g : ctx.size ≤ e.offset ∨ e.size = 0 ∨ ctx.size < addU64 e.offset e.size ∨
      readSize = 0 ∨ e.size ≤ offset ∨ e.size < addU64 offset readSize
  · rw [if_pos g]
  · rw [if_neg g]
    unfold pfsReadPartitionData
    rw [if_pos]
    exact Or.inr (Or.inr (Or.inr (Or.inr hShift)))

/-- C3 witnessed: an entry and window inside the documented bounds whose
shifted window `header_size + entry.offset + offset + read_size` overruns
the region, rejected by the delegate's re-check. -/
theorem pfsReadEntryData_shifted_recheck_witness :
    pfsReadEntryData
        { ncaOk := true, offset := 0, size := 0x30, headerSize := 0x20, entries := [] }
        { offset := 8, size := 0x10, name := [] }
        (fun _ => 0) 0x10 0 = (Except.error PfsError.invalidArgument, []) :=
  pfsReadEntryData_shifted_recheck _ _ _ 0x10 0 (by decide) (by decide) (by decide)

/-- C5: chain assembly is all-or-nothing. If
`_certRetrieveCertificateChainBySignatureIssuer` returns a chain, it is
fully populated — one certificate per issuer token, in order (first
conjunct); if any token's certificate retrieval fails, the whole operation
returns nothing: the chain built so far is released (`cert.c` line 346) and
no partially populated chain is ever observable (second conjunct). -/
theorem certChain_all_or_nothing (store : CertStore) (issuer : List Char) :
    (∀ chain : CertificateChain,
      _certRetrieveCertificateChainBySignatureIssuer store issuer = Option.some chain →
      List.Forall₂ (fun t c => _certRetrieveCertificateByName store t = Option.some c)
        (certChainTokens issuer) chain.certs) ∧
    ((∃ t ∈ certChainTokens issuer, _certRetrieveCertificateByName store t = Option.none) →
      _certRetrieveCertificateChainBySignatureIssuer store issuer = Option.none) := by
  constructor
  · intro chain h
    unfold _certRetrieveCertificateChainBySignatureIssuer at h
    by_cases hc : certGetCertificateCountInSignatureIssuer issuer = 0
    · rw [if_pos hc] at h
      cases h
    · rw [if_neg hc] at h
      cases hr : certRetrieveAll store (certChainTokens issuer) with
      | none => rw [hr] at h; cases h
      | some cs =>
        rw [hr] at h
        cases h
        exact forall2_of_certRetrieveAll hr
  · rintro ⟨t, ht, hnone⟩
    unfold _certRetrieveCertificateChainBySignatureIssuer
    by_cases hc : certGetCertificateCountInSignatureIssuer issuer = 0
    · rw [if_pos hc]
    · rw [if_neg hc, certRetrieveAll_eq_none_of_mem ht hnone]

/-- C5 witnessed: with `B` missing from the store, retrieval for
`"Root-A-B"` fails as a whole and no chain is returned. -/
theorem certChain_all_or_nothing_witness :
    _certRetrieveCertificateChainBySignatureIssuer c5Store "Root-A-B".toList =
      Option.none :=
  (certChain_all_or_nothing c5Store "Root-A-B".toList).2
    ⟨['B'], by decide, by decide⟩

set_option maxRecDepth 8000 in
/-- C9: the token count computed by the separate counting pass equals the
number of tokens the retrieval loop iterates over, for every issuer; hence
a successfully returned chain has exactly `token_count` certificates. In
particular `"Root-A-B-C"` yields token count 3 and (under a store resolving
`A`, `B`, `C`) a chain of length 3. -/
theorem certCount_consistent_with_retrieval :
    (∀ issuer : List Char,
      certGetCertificateCountInSignatureIssuer issuer = (certChainTokens issuer).length) ∧
    (∀ (store : CertStore) (issuer : List Char) (chain : CertificateChain),
      _certRetrieveCertificateChainBySignatureIssuer store issuer = Option.some chain →
      chain.certs.length = certGetCertificateCountInSignatureIssuer issuer) ∧
    certGetCertificateCountInSignatureIssuer c9Issuer = 3 ∧
    (∃ chain : CertificateChain,
      _certRetrieveCertificateChainBySignatureIssuer c9Store c9Issuer = Option.some chain ∧
      chain.certs.length = 3) := by
  refine ⟨count_eq_certChainTokens_length, ?_, by decide, ?_⟩
  · intro store issuer chain h
    unfold _certRetrieveCertificateChainBySignatureIssuer at h
    by_cases hc : certGetCertificateCountInSignatureIssuer issuer = 0
    · rw [if_pos hc] at h
      cases h
    · rw [if_neg hc] at h
      cases hr : certRetrieveAll store (certChainTokens issuer) with
      | none => rw [hr] at h; cases h
      | some cs =>
        rw [hr] at h
        cases h
        have h2 := List.Forall₂.length_eq (forall2_of_certRetrieveAll hr)
        rw [← h2, count_eq_certChainTokens_length]
  · exact ⟨c9Chain, by decide, rfl⟩

set_option maxRecDepth 8000 in
/-- C9 witnessed: the chain retrieved for `"Root-A-B-C"` has as many
certificates as the counting pass reports, namely 3. -/
theorem certCount_consistent_with_retrieval_witness :
    c9Chain.certs.length = certGetCertificateCountInSignatureIssuer c9Issuer :=
  certCount_consistent_with_retrieval.2.1 c9Store c9Issuer c9Chain (by decide)

/-- Appending anything to `rootTok` never yields the empty string. -/
lemma rootTok_append_ne_nil (y : List Char) : rootTok ++ y ≠ [] := by
  simp [rootTok]

/-- C10: both the counting pass and the retrieval pass copy the issuer
remainder into a `0x40`-byte buffer via `snprintf`, which keeps only the
first `0x3F` characters; hence for every issuer whose remainder is `0x3F`
bytes or longer (here: a `0x3F`-byte remainder `rem` extended by arbitrary
`ext`), the token count, the token list, and the retrieved chain are
identical to those of the truncated issuer — tokens beyond the truncation
point are silently ignored. -/
theorem certIssuer_truncated_to_3F (rem ext : List Char) (h : rem.length = 0x3F) :
    certGetCertificateCountInSignatureIssuer (rootTok ++ (rem ++ ext)) =
      certGetCertificateCountInSignatureIssuer (rootTok ++ rem) ∧
    certChainTokens (rootTok ++ (rem ++ ext)) = certChainTokens (rootTok ++ rem) ∧
    (∀ store : CertStore,
      _certRetrieveCertificateChainBySignatureIssuer store (rootTok ++ (rem ++ ext)) =
        _certRetrieveCertificateChainBySignatureIssuer store (rootTok ++ rem)) := by
  have hdrop : ∀ y : List Char, (rootTok ++ y).drop 5 = y := fun y => rfl
  have htrunc : ((rootTok ++ (rem ++ ext)).drop 5).take 0x3F =
      ((rootTok ++ rem).drop 5).take 0x3F := by
    rw [hdrop, hdrop, List.take_left' h, List.take_of_length_le (by omega)]
  have htok : certChainTokens (rootTok ++ (rem ++ ext)) = certChainTokens (rootTok ++ rem) := by
    unfold certChainTokens
    rw [htrunc]
  have hcnt : certGetCertificateCountInSignatureIssuer (rootTok ++ (rem ++ ext)) =
      certGetCertificateCountInSignatureIssuer (rootTok ++ rem) := by
    unfold certGetCertificateCountInSignatureIssuer certCountTokens
    rw [if_neg (rootTok_append_ne_nil _), if_neg (rootTok_append_ne_nil _), htrunc]
  refine ⟨hcnt, htok, ?_⟩
  intro store
  unfold _certRetrieveCertificateChainBySignatureIssuer
  rw [hcnt, htok]

/-- C10 witnessed: a 63-character remainder followed by an extra `"-B"`
token yields the same count and the same chain as the truncated issuer. -/
theorem certIssuer_truncated_to_3F_witness :
    certGetCertificateCountInSignatureIssuer
        (rootTok ++ (List.replicate 0x3F 'A' ++ ['-', 'B'])) =
      certGetCertificateCountInSignatureIssuer (rootTok ++ List.replicate 0x3F 'A') ∧
    _certRetrieveCertificateChainBySignatureIssuer c1Store
        (rootTok ++ (List.replicate 0x3F 'A' ++ ['-', 'B'])) =
      _certRetrieveCertificateChainBySignatureIssuer c1Store
        (rootTok ++ List.replicate 0x3F 'A') :=
  ⟨(certIssuer_truncated_to_3F (List.replicate 0x3F 'A') ['-', 'B'] (by decide)).1,
   (certIssuer_truncated_to_3F (List.replicate 0x3F 'A') ['-', 'B'] (by decide)).2.2 c1Store⟩

/-- Every certificate of a successful retrieval loop carries exactly `size`
bytes of data. -/
lemma wf_of_forall2 {store : CertStore} {ts : List (List Char)} {cs : List Certificate}
    (h : List.Forall₂ (fun t c => _certRetrieveCertificateByName store t = Option.some c) ts cs) :
    ∀ c ∈ cs, c.data.length = c.size := by
  induction h with
  | nil => intro c hc; cases hc
  | cons hrel _ ih =>
    intro c hc
    rcases List.mem_cons.mp hc with rfl | hmem
    · exact data_length_of_retrieveByName hrel
    · exact ih c hmem

/-- Splitting the concatenation of per-certificate `memcpy`s back at the
per-certificate sizes recovers each certificate's bytes. -/
lemma splitBySizes_flatten_take (cs : List Certificate)
    (hwf : ∀ c ∈ cs, c.data.length = c.size) :
    splitBySizes (cs.map fun c => c.size)
        ((cs.map fun c => c.data.take c.size).flatten) = cs.map fun c => c.data := by
  induction cs with
  | nil => rfl
  | cons c cs ih =>
    have hc : c.data.length = c.size := hwf c (List.mem_cons_self c cs)
    have hwf' : ∀ x ∈ cs, x.data.length = x.size := fun x hx => hwf x (List.mem_cons_of_mem c hx)
    have htake : c.data.take c.size = c.data := List.take_of_length_le (le_of_eq hc)
    simp only [List.map_cons, List.flatten_cons, htake]
    unfold splitBySizes
    rw [← hc, List.take_left, List.drop_left, ih hwf']

/-- C8: for every chain successfully retrieved for an issuer, the raw-chain
serialization of `certGenerateRawCertificateChainBySignatureIssuer`
(`certCalculateRawCertificateChainSize` +
`certCopyCertificateChainDataToMemoryBuffer`, `cert.c` lines 118-127)
produces a buffer whose length equals the sum of the member certificates'
sizes, and splitting that buffer back into consecutive segments at the
original per-certificate sizes, in chain order, recovers each member
certificate's bytes exactly. (Retrieval is taken through the inner engine
`_certRetrieveCertificateChainBySignatureIssuer`; the public wrapper's
guard is dead code — see the C1 theorem.) -/
theorem certRawChain_round_trip (store : CertStore) (issuer : List Char)
    (chain : CertificateChain)
    (h : _certRetrieveCertificateChainBySignatureIssuer store issuer = Option.some chain) :
    (certCopyCertificateChainDataToMemoryBuffer chain).length =
      certCalculateRawCertificateChainSize chain ∧
    splitBySizes (chain.certs.map fun c => c.size)
        (certCopyCertificateChainDataToMemoryBuffer chain) =
      chain.certs.map fun c => c.data := by
  unfold _certRetrieveCertificateChainBySignatureIssuer at h
  by_cases hc : certGetCertificateCountInSignatureIssuer issuer = 0
  · rw [if_pos hc] at h
    cases h
  · rw [if_neg hc] at h
    cases hr : certRetrieveAll store (certChainTokens issuer) with
    | none => rw [hr] at h; cases h
    | some cs =>
      rw [hr] at h
      cases h
      have hfa := forall2_of_certRetrieveAll hr
      have hwf := wf_of_forall2 hfa
      have hlen := List.Forall₂.length_eq hfa
      have hne : cs ≠ [] := by
        intro hnil
        apply hc
        rw [count_eq_certChainTokens_length, hlen, hnil]
        rfl
      have hcond : ¬(certGetCertificateCountInSignatureIssuer issuer = 0 ∨ cs = []) := by
        push_neg
        exact ⟨hc, hne⟩
      constructor
      · simp only [certCopyCertificateChainDataToMemoryBuffer,
          certCalculateRawCertificateChainSize]
        rw [if_neg hcond, if_neg hcond]
        rw [List.length_flatten, List.map_map]
        congr 1
        refine List.map_eq_map_iff.mpr ?_
        intro x hx
        simp only [Function.comp_apply, List.length_take, hwf x hx, Nat.min_self]
      · simp only [certCopyCertificateChainDataToMemoryBuffer]
        rw [if_neg hcond]
        exact splitBySizes_flatten_take cs hwf

set_option maxRecDepth 8000 in
/-- C8 witnessed on the 2-certificate chain of issuer
`"Root-CA00000003-XS00000020"`: the serialized buffer is `0x280` bytes long
(the sum of the two sizes) and splits back into the two certificates'
bytes. -/
theorem certRawChain_round_trip_witness :
    (certCopyCertificateChainDataToMemoryBuffer
        { count := 2, certs := [c1CertCA, c1CertXS] }).length =
      certCalculateRawCertificateChainSize { count := 2, certs := [c1CertCA, c1CertXS] } ∧
    splitBySizes (({ count := 2, certs := [c1CertCA, c1CertXS] } :
          CertificateChain).certs.map fun c => c.size)
        (certCopyCertificateChainDataToMemoryBuffer
          { count := 2, certs := [c1CertCA, c1CertXS] }) =
      ({ count := 2, certs := [c1CertCA, c1CertXS] } :
          CertificateChain).certs.map fun c => c.data :=
  certRawChain_round_trip c1Store c1Issuer _ (by decide)

/-- The 4-byte entry-start read performed by the ExeFS classification,
characterized: it succeeds — returning the four bytes at
`ctx.offset + ctx.headerSize + e.offset` — exactly when the entry holds at
least 4 bytes, fits the region, and its shifted start fits the region; it
is rejected as `InvalidArgument` otherwise. Requires the entry extent and
the region bounds to be representable (no 64-bit wrap). -/
lemma pfsReadEntryData_first4 (ctx : PfsCtx) (e : PfsEntry) (sec : NcaSection)
    (hNca : ctx.ncaOk = true)
    (he : e.offset + e.size < U64_MOD)
    (hSz : ctx.offset + ctx.headerSize + ctx.size + 4 < U64_MOD) :
    (pfsReadEntryData ctx e sec 4 0).1 =
      if 4 ≤ e.size ∧ e.offset + e.size ≤ ctx.size ∧
          ctx.headerSize + e.offset + 4 ≤ ctx.size then
        Except.ok (ncaReadFsSection sec 4 (ctx.offset + ctx.headerSize + e.offset))
      else Except.error PfsError.invalidArgument := by
  simp only [U64_MOD] at he hSz
  by_cases hcnd : 4 ≤ e.size ∧ e.offset + e.size ≤ ctx.size ∧
      ctx.headerSize + e.offset + 4 ≤ ctx.size
  · rw [if_pos hcnd]
    obtain ⟨h4, hee, hh4⟩ := hcnd
    have hg1 : ¬(ctx.size ≤ e.offset ∨ e.size = 0 ∨ ctx.size < addU64 e.offset e.size ∨
        (4 : Nat) = 0 ∨ e.size ≤ 0 ∨ e.size < addU64 0 4) := by
      simp only [addU64, U64_MOD]
      omega
    unfold pfsReadEntryData
    rw [if_neg hg1]
    unfold pfsReadPartitionData
    have hg2 : ¬(ctx.ncaOk = false ∨ ctx.size = 0 ∨ (4 : Nat) = 0 ∨
        ctx.size ≤ addU64 (addU64 ctx.headerSize e.offset) 0 ∨
        ctx.size < addU64 (addU64 (addU64 ctx.headerSize e.offset) 0) 4) := by
      rintro (habs | habs | habs | habs | habs)
      · rw [hNca] at habs
        simp at habs
      · omega
      · omega
      · simp only [addU64, U64_MOD] at habs
        omega
      · simp only [addU64, U64_MOD] at habs
        omega
    rw [if_neg hg2]
    have hpos : addU64 ctx.offset (addU64 (addU64 ctx.headerSize e.offset) 0) =
        ctx.offset + ctx.headerSize + e.offset := by
      simp only [addU64, U64_MOD]
      omega
    rw [hpos]
  · rw [if_neg hcnd]
    push_neg at hcnd
    by_cases hA : 4 ≤ e.size
    · by_cases hB : e.offset + e.size ≤ ctx.size
      · have hC : ctx.size < ctx.headerSize + e.offset + 4 := by
          have := hcnd hA hB
          omega
        have hg1 : ¬(ctx.size ≤ e.offset ∨ e.size = 0 ∨ ctx.size < addU64 e.offset e.size ∨
            (4 : Nat) = 0 ∨ e.size ≤ 0 ∨ e.size < addU64 0 4) := by
          simp only [addU64, U64_MOD]
          omega
        unfold pfsReadEntryData
        rw [if_neg hg1]
        unfold pfsReadPartitionData
        have hg2 : ctx.ncaOk = false ∨ ctx.size = 0 ∨ (4 : Nat) = 0 ∨
            ctx.size ≤ addU64 (addU64 ctx.headerSize e.offset) 0 ∨
            ctx.size < addU64 (addU64 (addU64 ctx.headerSize e.offset) 0) 4 := by
          right; right; right
          simp only [addU64, U64_MOD]
          omega
        rw [if_pos hg2]
      · have hg1 : ctx.size ≤ e.offset ∨ e.size = 0 ∨ ctx.size < addU64 e.offset e.size ∨
            (4 : Nat) = 0 ∨ e.size ≤ 0 ∨ e.size < addU64 0 4 := by
          right; right; left
          simp only [addU64, U64_MOD]
          omega
        unfold pfsReadEntryData
        rw [if_pos hg1]
    · have hg1 : ctx.size ≤ e.offset ∨ e.size = 0 ∨ ctx.size < addU64 e.offset e.size ∨
          (4 : Nat) = 0 ∨ e.size ≤ 0 ∨ e.size < addU64 0 4 := by
        right; right; right; right; right
        simp only [addU64, U64_MOD]
        omega
      unfold pfsReadEntryData
      rw [if_pos hg1]

/-- C6: after a successful `pfsInitializeContext`, `is_exefs` is true iff
an entry named `main.npdm` exists and its first 4 bytes (readable within
the entry and the region), interpreted big-endian, equal
`NPDM_META_MAGIC`; in every other case — absent entry, wrong magic, empty
or too-short entry, out-of-region entry — the flag is false; and the
classification step itself always completes, so absence or mismatch never
fails the initialization (first conjunct). The representability
hypotheses say the entry extents and the region window do not wrap the
64-bit space (the spec's own data-model invariant). -/
theorem pfsIsExefs_iff_main_npdm_magic (ctx : PfsCtx) (sec : NcaSection)
    (hNca : ctx.ncaOk = true)
    (hEnt : ∀ e ∈ ctx.entries, e.offset + e.size < U64_MOD)
    (hSz : ctx.offset + ctx.headerSize + ctx.size + 4 < U64_MOD) :
    (pfsInitClassifyStep ctx sec).isSome = true ∧
    (pfsIsExefs ctx sec = true ↔
      ∃ e, pfsGetEntryByName ctx mainNpdmName = Option.some e ∧
        4 ≤ e.size ∧ e.offset + e.size ≤ ctx.size ∧
        ctx.headerSize + e.offset + 4 ≤ ctx.size ∧
        be32 (ncaReadFsSection sec 4 (ctx.offset + ctx.headerSize + e.offset)) =
          NPDM_META_MAGIC) := by
  refine ⟨rfl, ?_⟩
  cases hfind : pfsGetEntryByName ctx mainNpdmName with
  | none =>
    unfold pfsIsExefs
    rw [hfind]
    simp
  | some e =>
    have hmem : e ∈ ctx.entries := by
      have h1 : ctx.entries.find? (fun x => x.name = mainNpdmName) = Option.some e := hfind
      exact List.mem_of_find?_eq_some h1
    have he : e.offset + e.size < U64_MOD := hEnt e hmem
    have hemain : pfsIsExefs ctx sec =
        (match (pfsReadEntryData ctx e sec 4 0).1 with
         | Except.error _ => false
         | Except.ok bs => decide (be32 bs = NPDM_META_MAGIC)) := by
      unfold pfsIsExefs
      rw [hfind]
    rw [hemain, pfsReadEntryData_first4 ctx e sec hNca he hSz]
    by_cases hcnd : 4 ≤ e.size ∧ e.offset + e.size ≤ ctx.size ∧
        ctx.headerSize + e.offset + 4 ≤ ctx.size
    · rw [if_pos hcnd]
      dsimp only
      constructor
      · intro hd
        exact ⟨e, rfl, hcnd.1, hcnd.2.1, hcnd.2.2,
          of_decide_eq_true hd⟩
      · rintro ⟨e', he', _, _, _, hmag⟩
        cases he'
        exact decide_eq_true hmag
    · rw [if_neg hcnd]
      dsimp only
      constructor
      · intro habs
        cases habs
      · rintro ⟨e', he', h4, hee, hh4, _⟩
        cases he'
        exact absurd ⟨h4, hee, hh4⟩ hcnd

/-- C6 witnessed on a context with a 4-byte `main.npdm` entry whose bytes
spell the metadata magic. -/
theorem pfsIsExefs_iff_main_npdm_magic_witness :
    (pfsInitClassifyStep c6Ctx c6Sec).isSome = true ∧
    (pfsIsExefs c6Ctx c6Sec = true ↔
      ∃ e, pfsGetEntryByName c6Ctx mainNpdmName = Option.some e ∧
        4 ≤ e.size ∧ e.offset + e.size ≤ c6Ctx.size ∧
        c6Ctx.headerSize + e.offset + 4 ≤ c6Ctx.size ∧
        be32 (ncaReadFsSection c6Sec 4 (c6Ctx.offset + c6Ctx.headerSize + e.offset)) =
          NPDM_META_MAGIC) :=
  pfsIsExefs_iff_main_npdm_magic c6Ctx c6Sec (by decide) (by decide) (by decide)

end Nxdt
